import Mathlib

set_option maxHeartbeats 1000000

deriving instance DecidableEq for Except

/-!
Shallow embedding of the contact persistence and validation core of the
Contact-List-Manager repository: the SQLite storage adapter
(src/backend/src/config/database.js, class ContactDatabase), the domain
validation (Contact.validate from the Contact model in the same file), the
service layer (src/backend/src/services/contactService.js, class
ContactService), and the alternative MongoDB storage adapter (the second
ContactDatabase class shipped in the repository).

Machine integers do not occur: SQLite row ids are unbounded integers here
(Nat), timestamps are modelled as an abstract Nat clock passed explicitly
to each write, and JavaScript strings are Lean Strings.
-/

/-- Code-point test used to model the JavaScript whitespace class: the regex
class backslash-s and the character set String.prototype.trim removes
(tab through carriage return, space, NBSP, Ogham space mark, the Unicode
space separators U+2000..U+200A, line and paragraph separators, narrow
no-break space, medium mathematical space, ideographic space, and BOM). -/
def isJsWhitespace (c : Char) : Bool :=
  c.toNat == 9 || c.toNat == 10 || c.toNat == 11 || c.toNat == 12 ||
  c.toNat == 13 || c.toNat == 32 || c.toNat == 160 || c.toNat == 5760 ||
  (Nat.ble 8192 c.toNat && Nat.ble c.toNat 8202) ||
  c.toNat == 8232 || c.toNat == 8233 || c.toNat == 8239 || c.toNat == 8287 ||
  c.toNat == 12288 || c.toNat == 65279

/-- Inclusive code-point range test, used to keep the character classes of the
source regexes readable. -/
def inRange (lo hi : Nat) (c : Char) : Bool :=
  Nat.ble lo c.toNat && Nat.ble c.toNat hi

/-- The regex class [A-Za-z]. -/
def isAsciiLetter (c : Char) : Bool :=
  inRange 65 90 c || inRange 97 122 c

/-- The regex class [0-9]. -/
def isDig (c : Char) : Bool := inRange 48 57 c

/-- List-level version of JavaScript String.prototype.trim: drop JS whitespace
from both ends. -/
def trimL (cs : List Char) : List Char :=
  ((cs.dropWhile isJsWhitespace).reverse.dropWhile isJsWhitespace).reverse

/-- JavaScript String.prototype.trim. -/
def trimJs (s : String) : String := String.mk (trimL s.data)

/-- Translation of the name test regex (anchored [A-Za-z and whitespace]+ in
Contact.validate): the string is non-empty and every character is an ASCII
letter or JS whitespace. -/
def nameRegexTest (s : String) : Bool :=
  !s.data.isEmpty && s.data.all (fun c => isAsciiLetter c || isJsWhitespace c)

/-- The regex class excluding whitespace and the at sign (code point 64),
written [^ whitespace @] in Contact.validate's email regex. -/
def isEmailAtom (c : Char) : Bool :=
  !isJsWhitespace c && !(c.toNat == 64)

/-- The domain part of the email regex demands a literal dot with at least one
character before it and one after it inside the domain: a dot at an inner
position, i.e. in the sublist that drops the first and last character. -/
def hasInnerDot (dom : List Char) : Bool :=
  ((dom.drop 1).dropLast).any (fun c => c == '.')

/-- Translation of the anchored email regex of Contact.validate
(one-or-more non-whitespace-non-at, an at sign, one-or-more
non-whitespace-non-at, a dot, one-or-more non-whitespace-non-at).
Because the character class excludes the at sign, the at sign of the pattern
can only match the first at sign of the string; the part before it must be a
non-empty run of atoms, everything after it must be a non-empty run of atoms
containing a dot at an inner position. -/
def validEmailL (cs : List Char) : Bool :=
  let loc := cs.takeWhile (fun c => !(c.toNat == 64))
  let rest := cs.dropWhile (fun c => !(c.toNat == 64))
  match rest with
  | [] => false
  | _ :: dom =>
    !loc.isEmpty && loc.all isEmailAtom &&
    !dom.isEmpty && dom.all isEmailAtom && hasInnerDot dom

/-- String-level email validity test of Contact.validate. -/
def validEmail (s : String) : Bool := validEmailL s.data

/-- Result shape of Contact.validate: a verdict and the pushed error
messages. -/
structure ValidationResult where
  isValid : Bool
  errors : List String
deriving Repr, DecidableEq

/-- The name branch of Contact.validate: the three else-if'd checks, each
pushing its message. -/
def nameErrors (name : String) : List String :=
  if name = "" ∨ trimJs name = "" then ["Name is required"]
  else if 50 < name.length then ["Name must be less than 50 characters"]
  else if nameRegexTest name = false then ["Name must only contain letters and spaces"]
  else []

/-- The email branch of Contact.validate. -/
def emailErrors (email : String) : List String :=
  if email = "" ∨ trimJs email = "" then ["Email is required"]
  else if validEmail email = false then ["Please provide a valid email address"]
  else []

/-- Contact.validate: collect the name errors then the email errors; the
verdict is that the collected list is empty. -/
def validate (name email : String) : ValidationResult :=
  let errors := nameErrors name ++ emailErrors email
  ⟨errors.isEmpty, errors⟩

/-- SQLite LIKE folds the ASCII uppercase letters before comparing; other
characters compare verbatim. -/
def toLowerAscii (c : Char) : Char :=
  if inRange 65 90 c = true then Char.ofNat (c.toNat + 32) else c

/-- SQLite LIKE pattern matching (percent matches any run, underscore matches
one character, everything else matches one character up to ASCII case),
indexed by fuel so that the definition is structural and computes by kernel
reduction; each step shortens pattern-plus-string, so fuel
pattern length + string length + 1 always suffices (likeL below). -/
def likeFuel : Nat → List Char → List Char → Bool
  | 0, _, _ => false
  | fuel + 1, ps, s =>
    match ps with
    | [] => s.isEmpty
    | p :: pr =>
      if p = '%' then
        likeFuel fuel pr s ||
          (match s with
           | [] => false
           | _ :: t => likeFuel fuel (p :: pr) t)
      else if p = '_' then
        (match s with
         | [] => false
         | _ :: t => likeFuel fuel pr t)
      else
        (match s with
         | [] => false
         | c :: t => (toLowerAscii p == toLowerAscii c) && likeFuel fuel pr t)

/-- SQLite LIKE on character lists. -/
def likeL (ps s : List Char) : Bool :=
  likeFuel (ps.length + s.length + 1) ps s

/-- SQLite LIKE on strings: pattern, then the string tested. -/
def likeMatch (pat str : String) : Bool := likeL pat.data str.data

/-- The email CHECK constraint pattern of the contacts table schema. -/
def emailCheckPattern : String := "%_@__%.__%"

/-- Case-insensitive prefix test between character lists (needle first), the
building block of the specification-side substring predicate. -/
def startsWithCI : List Char → List Char → Bool
  | [], _ => true
  | _ :: _, [] => false
  | a :: needle, b :: hay => (toLowerAscii a == toLowerAscii b) && startsWithCI needle hay

/-- Specification-side predicate, following the spec's words: the needle
occurs in the haystack as a case-insensitive substring. -/
def containsCI : List Char → List Char → Bool
  | [], needle => startsWithCI needle []
  | c :: t, needle => startsWithCI needle (c :: t) || containsCI t needle

/-- Digit value of a character under the given radix (10 or 16), none when the
character is no digit of that radix. -/
def digitValB (base : Nat) (c : Char) : Option Nat :=
  if isDig c = true then some (c.toNat - 48)
  else if base == 16 && inRange 97 102 c then some (c.toNat - 87)
  else if base == 16 && inRange 65 70 c then some (c.toNat - 55)
  else none

/-- JavaScript parseInt with no radix argument, as the adapter calls it: skip
leading JS whitespace, one optional sign, a 0x or 0X marker switching to
hexadecimal, then the longest run of digits of the radix; none models NaN
(no digits at all). -/
def parseIntJs (s : String) : Option Int :=
  let cs := s.data.dropWhile isJsWhitespace
  let neg : Bool := cs.head? == some '-'
  let cs1 := if cs.head? == some '-' || cs.head? == some '+' then cs.tail else cs
  let isHex : Bool :=
    cs1.head? == some '0' && (cs1.tail.head? == some 'x' || cs1.tail.head? == some 'X')
  let base : Nat := if isHex then 16 else 10
  let cs2 := if isHex then cs1.tail.tail else cs1
  let ds := cs2.takeWhile (fun c => (digitValB base c).isSome)
  if ds.isEmpty then none
  else
    let v : Nat := ds.foldl (fun a c => a * base + (digitValB base c).getD 0) 0
    if neg then some (-(v : Int)) else some ((v : Int))

/-- The accumulator step parseIntJs runs per decimal digit. -/
def decStep (a : Nat) (c : Char) : Nat := a * 10 + (digitValB 10 c).getD 0

/-- Decimal digit character, written as a table so that every lemma about it
is a finite case check. -/
def digitChar (n : Nat) : Char :=
  match n with
  | 0 => '0' | 1 => '1' | 2 => '2' | 3 => '3' | 4 => '4'
  | 5 => '5' | 6 => '6' | 7 => '7' | 8 => '8' | 9 => '9'
  | _ => '0'

/-- Decimal digits of a number, least significant first, fuel-indexed (the
value shrinks by a factor ten per step, so fuel n + 1 suffices). -/
def toDecRev : Nat → Nat → List Char
  | 0, _ => []
  | fuel + 1, n => if n < 10 then [digitChar n] else digitChar (n % 10) :: toDecRev fuel (n / 10)

/-- JavaScript Number.prototype.toString with radix 10, as the adapter applies
it to lastInsertRowid and to row ids. -/
def natToDec (n : Nat) : String := String.mk (toDecRev (n + 1) n).reverse

/-- A stored row of the contacts table: integer primary key, name, email and
creation timestamp. -/
structure Row where
  id : Nat
  name : String
  email : String
  createdAt : Nat
deriving Repr, DecidableEq

/-- The SQLite store: the rows in insertion order and the next
auto-increment key. -/
structure Store where
  rows : List Row
  nextId : Nat
deriving Repr, DecidableEq

/-- The freshly created table. -/
def initStore : Store := ⟨[], 1⟩

/-- An identifier value as the adapters surface it: either a string (the
SQLite adapter converts the integer key with toString) or the document
engine's native ObjectId. -/
inductive DbId where
  | str (s : String)
  | oid (hex : String)
deriving Repr, DecidableEq

/-- The single-contact shape the adapters return. -/
structure DbContact where
  _id : DbId
  name : String
  email : String
  createdAt : Nat
deriving Repr, DecidableEq

/-- Insert a row in front of the first element whose timestamp it reaches:
one step of sorting by createdAt descending. -/
def insertByCreatedAt (r : Row) : List Row → List Row
  | [] => [r]
  | x :: xs => if x.createdAt ≤ r.createdAt then r :: x :: xs else x :: insertByCreatedAt r xs

/-- ORDER BY created_at DESC of the adapter's read queries. -/
def sortByCreatedAtDesc (l : List Row) : List Row := l.foldr insertByCreatedAt []

/-- The row conversion every SQLite adapter read performs: the integer key
becomes the string _id, the other fields are copied. -/
def rowToContact (r : Row) : DbContact :=
  ⟨DbId.str (natToDec r.id), r.name, r.email, r.createdAt⟩

/-- ContactDatabase.getAllContacts (SQLite): all rows ordered by created_at
descending, converted. -/
def getAllContacts (st : Store) : List DbContact :=
  (sortByCreatedAtDesc st.rows).map rowToContact

/-- ContactDatabase.getContactByEmail (SQLite): first row with that exact
email, or none. -/
def getContactByEmail (st : Store) (email : String) : Option DbContact :=
  (st.rows.find? (fun r => r.email == email)).map rowToContact

/-- ContactDatabase.getContactById (SQLite): the id string goes through
parseInt; NaN (none) compares equal to no key, otherwise the row with that
integer key is looked up. -/
def getContactById (st : Store) (id : String) : Option DbContact :=
  match parseIntJs id with
  | none => none
  | some n => (st.rows.find? (fun r => (r.id : Int) == n)).map rowToContact

/-- The two constraint failures an insert distinguishes: the UNIQUE email
index (mapped by the adapter to its distinguished duplicate error) and any
other constraint, here the two CHECK clauses of the schema, rethrown
verbatim. -/
inductive DbError where
  | uniqueViolation
  | checkViolation
deriving Repr, DecidableEq

/-- ContactDatabase.addContact (SQLite): run the INSERT — the schema enforces
CHECK length(name) between 1 and 50, CHECK email LIKE the check pattern, and
UNIQUE(email) — then re-read the new row through getContactById on the
stringified lastInsertRowid, exactly as the source does. -/
def addContact (st : Store) (now : Nat) (name email : String) :
    Except DbError (Option DbContact × Store) :=
  if ¬(0 < name.length ∧ name.length ≤ 50) ∨ likeMatch emailCheckPattern email = false then
    Except.error DbError.checkViolation
  else if st.rows.any (fun r => r.email == email) then
    Except.error DbError.uniqueViolation
  else
    let row : Row := ⟨st.nextId, name, email, now⟩
    let stNew : Store := ⟨st.rows ++ [row], st.nextId + 1⟩
    Except.ok (getContactById stNew (natToDec st.nextId), stNew)

/-- ContactDatabase.deleteContact (SQLite): DELETE WHERE id = parseInt(id)
(NaN binds as NULL and matches nothing), reporting whether any row went. -/
def deleteContact (st : Store) (id : String) : Bool × Store :=
  match parseIntJs id with
  | none => (false, st)
  | some n =>
    let remaining := st.rows.filter (fun r => !((r.id : Int) == n))
    (decide (remaining.length < st.rows.length), ⟨remaining, st.nextId⟩)

/-- ContactDatabase.searchContacts (SQLite): rows whose name or email is LIKE
the query wrapped in percents, ordered by created_at descending. -/
def searchContacts (st : Store) (query : String) : List DbContact :=
  let pat := "%" ++ query ++ "%"
  (sortByCreatedAtDesc (st.rows.filter
    (fun r => likeMatch pat r.name || likeMatch pat r.email))).map rowToContact

/-- ContactDatabase.getContactCount (SQLite): COUNT(*). -/
def getContactCount (st : Store) : Nat := st.rows.length

/-- A document of the MongoDB contacts collection: the native ObjectId (kept
abstract as its hex spelling), name, email, creation timestamp. -/
structure MDoc where
  mid : String
  name : String
  email : String
  createdAt : Nat
deriving Repr, DecidableEq

/-- The MongoDB store. -/
structure MStore where
  docs : List MDoc
deriving Repr, DecidableEq

/-- Hexadecimal digit. -/
def isHexDigitC (c : Char) : Bool :=
  isDig c || inRange 97 102 c || inRange 65 70 c

/-- A string the ObjectId constructor accepts: exactly 24 hex characters. -/
def isValidObjectId (s : String) : Bool :=
  s.length == 24 && s.data.all isHexDigitC

/-- The BSONError message the ObjectId constructor raises on any other
string. -/
def bsonErrorMessage : String :=
  "input must be a 24 character hex string, 12 byte Uint8Array, or an integer"

/-- A MongoDB read returns the raw document: the _id field keeps the native
ObjectId. -/
def mdocToRaw (d : MDoc) : DbContact :=
  ⟨DbId.oid d.mid, d.name, d.email, d.createdAt⟩

/-- ContactDatabase.getContactByEmail (MongoDB): findOne on the email,
returning the raw document. -/
def getContactByEmailM (st : MStore) (email : String) : Option DbContact :=
  (st.docs.find? (fun d => d.email == email)).map mdocToRaw

/-- ContactDatabase.getContactById (MongoDB): new ObjectId(id) throws a
BSONError on a malformed string — the method's catch block logs and
rethrows — otherwise findOne on the key. -/
def getContactByIdM (st : MStore) (id : String) : Except String (Option DbContact) :=
  if isValidObjectId id then
    Except.ok ((st.docs.find? (fun d => d.mid == id)).map mdocToRaw)
  else Except.error bsonErrorMessage

/-- ContactDatabase.addContact (MongoDB): insertOne under the unique email
index (duplicate raises code 11000, mapped to the duplicate message), with the
engine-generated ObjectId passed in explicitly; the returned shape spreads the
inserted document under the native insertedId. -/
def addContactM (st : MStore) (newId : String) (now : Nat) (name email : String) :
    Except String (DbContact × MStore) :=
  if st.docs.any (fun d => d.email == email) then Except.error "Email already exists"
  else
    Except.ok (⟨DbId.oid newId, name, email, now⟩, ⟨st.docs ++ [⟨newId, name, email, now⟩]⟩)

/-- Contact.fromDatabase followed by Contact.toJSON, the mapping the service
layer applies to every adapter row: on the adapter's canonical shape it
copies every field. -/
def fromDatabaseToJSON (c : DbContact) : DbContact :=
  ⟨c._id, c.name, c.email, c.createdAt⟩

/-- The failure conditions of the service create, told apart downstream by
their messages: the validation message with the collected error list, the
duplicate-email message (from the pre-check or from the adapter's mapped
UNIQUE failure), and any other storage error rethrown opaquely. -/
inductive CreateError where
  | validationFailed (errors : List String)
  | duplicateEmail
  | storageFault
deriving Repr, DecidableEq

/-- ContactService.getAllContacts. -/
def serviceGetAll (st : Store) : List DbContact :=
  (getAllContacts st).map fromDatabaseToJSON

/-- ContactService.getContactById. -/
def serviceGetById (st : Store) (id : String) : Option DbContact :=
  (getContactById st id).map fromDatabaseToJSON

/-- ContactService.getContactByEmail. -/
def serviceGetByEmail (st : Store) (email : String) : Option DbContact :=
  (getContactByEmail st email).map fromDatabaseToJSON

/-- ContactService.createContact: validate (throwing the validation message
before any storage call), pre-check the email, insert, map the adapter's
result; a null re-read after the insert would make Contact.fromDatabase blow
up, surfacing as an opaque fault. -/
def serviceCreate (st : Store) (now : Nat) (name email : String) :
    Except CreateError DbContact × Store :=
  let v := validate name email
  if v.isValid = true then
    match serviceGetByEmail st email with
    | some _ => (Except.error CreateError.duplicateEmail, st)
    | none =>
      match addContact st now name email with
      | Except.error DbError.uniqueViolation => (Except.error CreateError.duplicateEmail, st)
      | Except.error DbError.checkViolation => (Except.error CreateError.storageFault, st)
      | Except.ok (some c, stNew) => (Except.ok (fromDatabaseToJSON c), stNew)
      | Except.ok (none, stNew) => (Except.error CreateError.storageFault, stNew)
  else (Except.error (CreateError.validationFailed v.errors), st)

/-- ContactService.deleteContact: direct delegation. -/
def serviceDelete (st : Store) (id : String) : Bool × Store := deleteContact st id

/-- ContactService.searchContacts: a falsy or whitespace-only query returns
the full listing; anything else delegates with the trimmed query. -/
def serviceSearch (st : Store) (query : String) : List DbContact :=
  if query = "" ∨ trimJs query = "" then serviceGetAll st
  else (searchContacts st (trimJs query)).map fromDatabaseToJSON

/-- ContactService.getContactCount: direct delegation. -/
def serviceCount (st : Store) : Nat := getContactCount st

/-- Specification-side search predicate, following the spec's words: the
row's name or email contains the query as a case-insensitive substring. -/
def specMatches (q : String) (r : Row) : Bool :=
  containsCI r.name.data q.data || containsCI r.email.data q.data

/-- How many stored rows carry the given email. -/
def countEmail (st : Store) (email : String) : Nat :=
  (st.rows.filter (fun r => r.email == email)).length

/-- Whether a returned contact surfaces its identifier as a string. -/
def idIsStr (c : DbContact) : Bool :=
  match c._id with
  | DbId.str _ => true
  | DbId.oid _ => false

/-- The identifier a caller reads off a returned contact. -/
def idStringOf (c : DbContact) : String :=
  match c._id with
  | DbId.str s => s
  | DbId.oid s => s

/-- One create followed by a fetch of the returned id: true when the create
succeeds and the fetch returns the identical contact. -/
def roundTrips (st : Store) (now : Nat) (name email : String) : Bool :=
  match serviceCreate st now name email with
  | (Except.ok c, stNew) => serviceGetById stNew (idStringOf c) == some c
  | _ => false

/-- Two creates with the same email: true when the first succeeds and the
second fails with the duplicate condition, leaving the store of the first
call untouched with exactly one contact under that email. -/
def dupSecondCall (st : Store) (now1 now2 : Nat) (name1 name2 email : String) : Bool :=
  match serviceCreate st now1 name1 email with
  | (Except.ok _, st1) =>
    let r2 := serviceCreate st1 now2 name2 email
    (match r2.1 with
     | Except.error CreateError.duplicateEmail => true
     | _ => false) && (r2.2 == st1) && (countEmail st1 email == 1)
  | _ => false

/-- Inserting keeps the same elements: the insertion is a permutation of
consing. -/
lemma insertByCreatedAt_perm (r : Row) (l : List Row) :
    (insertByCreatedAt r l).Perm (r :: l) := by
  induction l with
  | nil => simp [insertByCreatedAt]
  | cons x xs ih =>
    by_cases hle : x.createdAt ≤ r.createdAt
    · simp [insertByCreatedAt, hle]
    · simp only [insertByCreatedAt, if_neg hle]
      exact (ih.cons x).trans (List.Perm.swap r x xs)

/-- Sorting by createdAt descending permutes the input list. -/
lemma sortByCreatedAtDesc_perm (l : List Row) : (sortByCreatedAtDesc l).Perm l := by
  induction l with
  | nil => simp [sortByCreatedAtDesc]
  | cons x xs ih =>
    have hstep : sortByCreatedAtDesc (x :: xs) = insertByCreatedAt x (sortByCreatedAtDesc xs) := rfl
    rw [hstep]
    exact (insertByCreatedAt_perm x _).trans (ih.cons x)

/-- Sorting keeps the length. -/
lemma sortByCreatedAtDesc_length (l : List Row) :
    (sortByCreatedAtDesc l).length = l.length :=
  (sortByCreatedAtDesc_perm l).length_eq

/-- Inserting into a list sorted by createdAt descending keeps it sorted. -/
lemma insertByCreatedAt_pairwise {r : Row} {l : List Row}
    (h : l.Pairwise (fun a b => b.createdAt ≤ a.createdAt)) :
    (insertByCreatedAt r l).Pairwise (fun a b => b.createdAt ≤ a.createdAt) := by
  induction l with
  | nil => simp [insertByCreatedAt]
  | cons x xs ih =>
    rw [List.pairwise_cons] at h
    by_cases hle : x.createdAt ≤ r.createdAt
    · simp only [insertByCreatedAt, if_pos hle]
      rw [List.pairwise_cons]
      refine ⟨?_, List.pairwise_cons.mpr h⟩
      intro b hb
      rcases List.mem_cons.mp hb with rfl | hb
      · exact hle
      · exact le_trans (h.1 b hb) hle
    · simp only [insertByCreatedAt, if_neg hle]
      rw [List.pairwise_cons]
      refine ⟨?_, ih h.2⟩
      intro b hb
      rcases List.mem_cons.mp ((insertByCreatedAt_perm r xs).mem_iff.mp hb) with rfl | hb
      · exact le_of_not_le hle
      · exact h.1 b hb

/-- The adapter's read order really is sorted by createdAt descending. -/
lemma sortByCreatedAtDesc_pairwise (l : List Row) :
    (sortByCreatedAtDesc l).Pairwise (fun a b => b.createdAt ≤ a.createdAt) := by
  induction l with
  | nil => simp [sortByCreatedAtDesc]
  | cons x xs ih => exact insertByCreatedAt_pairwise ih

/-- trimL empties out exactly on all-whitespace input. -/
lemma trimL_eq_nil_iff (cs : List Char) :
    trimL cs = [] ↔ ∀ c ∈ cs, isJsWhitespace c = true := by
  unfold trimL
  rw [List.reverse_eq_nil_iff, List.dropWhile_eq_nil_iff]
  constructor
  · intro h c hc
    rcases List.mem_append.mp ((List.takeWhile_append_dropWhile (p := isJsWhitespace) (l := cs)) ▸ hc) with hl | hr
    · exact List.mem_takeWhile_imp hl
    · exact h c (List.mem_reverse.mpr hr)
  · intro h c hc
    exact h c ((List.dropWhile_sublist _).mem (List.mem_reverse.mp hc))

/-- JavaScript trim gives the empty string exactly on all-whitespace input. -/
lemma trimJs_eq_empty_iff (s : String) :
    trimJs s = "" ↔ ∀ c ∈ s.data, isJsWhitespace c = true := by
  rw [show ("" : String) = String.mk [] from rfl]
  unfold trimJs
  rw [String.ext_iff]
  exact trimL_eq_nil_iff s.data

/-- The fuel of likeFuel is irrelevant once it exceeds pattern length plus
string length. -/
lemma likeFuel_fuel_irrel :
    ∀ f g ps s, ps.length + s.length < f → ps.length + s.length < g →
      likeFuel f ps s = likeFuel g ps s := by
  intro f
  induction f with
  | zero => intro g ps s hf _; exact absurd hf (Nat.not_lt_zero _)
  | succ f ih =>
    intro g ps s hf hg
    cases g with
    | zero => exact absurd hg (Nat.not_lt_zero _)
    | succ g =>
      cases ps with
      | nil => simp [likeFuel]
      | cons p pr =>
        simp only [List.length_cons] at hf hg
        by_cases hp : p = '%'
        · subst hp
          cases s with
          | nil =>
            simp only [likeFuel, if_pos rfl]
            rw [ih g pr [] (by simp; omega) (by simp; omega)]
          | cons c t =>
            simp only [likeFuel, if_pos rfl, List.length_cons] at hf hg ⊢
            rw [ih g pr (c :: t) (by simp; omega) (by simp; omega),
              ih g ('%' :: pr) t (by simp; omega) (by simp; omega)]
            simp
        · by_cases hq : p = '_'
          · subst hq
            cases s with
            | nil => simp [likeFuel, hp]
            | cons c t =>
              simp only [List.length_cons] at hf hg
              simp only [likeFuel, if_neg hp, if_pos rfl]
              rw [ih g pr t (by omega) (by omega)]
          · cases s with
            | nil => simp [likeFuel, hp, hq]
            | cons c t =>
              simp only [List.length_cons] at hf hg
              simp only [likeFuel, if_neg hp, if_neg hq]
              rw [ih g pr t (by omega) (by omega)]

lemma likeFuel_eq_likeL (f : Nat) (ps s : List Char) (h : ps.length + s.length < f) :
    likeFuel f ps s = likeL ps s :=
  likeFuel_fuel_irrel f (ps.length + s.length + 1) ps s h (by omega)

lemma likeL_nil (s : List Char) : likeL [] s = s.isEmpty := by
  cases s <;> rfl

lemma likeL_percent (ps s : List Char) :
    likeL ('%' :: ps) s =
      (likeL ps s || (match s with | [] => false | _ :: t => likeL ('%' :: ps) t)) := by
  cases s with
  | nil =>
    have h : likeL ('%' :: ps) [] = (likeFuel (ps.length + 1 + 0) ps [] || false) := rfl
    rw [h, likeFuel_eq_likeL (ps.length + 1 + 0) ps [] (by simp)]
  | cons c t =>
    have h : likeL ('%' :: ps) (c :: t) =
        (likeFuel (ps.length + 1 + (t.length + 1)) ps (c :: t) ||
          likeFuel (ps.length + 1 + (t.length + 1)) ('%' :: ps) t) := rfl
    rw [h, likeFuel_eq_likeL (ps.length + 1 + (t.length + 1)) ps (c :: t) (by simp),
      likeFuel_eq_likeL (ps.length + 1 + (t.length + 1)) ('%' :: ps) t (by simp)]

lemma likeL_underscore (ps s : List Char) :
    likeL ('_' :: ps) s = (match s with | [] => false | _ :: t => likeL ps t) := by
  cases s with
  | nil => rfl
  | cons c t =>
    have h : likeL ('_' :: ps) (c :: t) = likeFuel (ps.length + 1 + (t.length + 1)) ps t := rfl
    rw [h, likeFuel_eq_likeL (ps.length + 1 + (t.length + 1)) ps t (by omega)]

lemma likeL_lit (p : Char) (ps s : List Char) (hp : p ≠ '%') (hq : p ≠ '_') :
    likeL (p :: ps) s =
      (match s with
       | [] => false
       | c :: t => (toLowerAscii p == toLowerAscii c) && likeL ps t) := by
  cases s with
  | nil =>
    have h : likeL (p :: ps) [] =
        (if p = '%' then (likeFuel (ps.length + 1 + 0) ps [] || false)
         else if p = '_' then false else false) := rfl
    rw [h, if_neg hp, if_neg hq]
  | cons c t =>
    have h : likeL (p :: ps) (c :: t) =
        (if p = '%' then
          (likeFuel (ps.length + 1 + (t.length + 1)) ps (c :: t) ||
            likeFuel (ps.length + 1 + (t.length + 1)) (p :: ps) t)
         else if p = '_' then likeFuel (ps.length + 1 + (t.length + 1)) ps t
         else ((toLowerAscii p == toLowerAscii c) &&
           likeFuel (ps.length + 1 + (t.length + 1)) ps t)) := rfl
    rw [h, if_neg hp, if_neg hq,
      likeFuel_eq_likeL (ps.length + 1 + (t.length + 1)) ps t (by omega)]

lemma likeL_percent_iff (ps : List Char) : ∀ s, likeL ('%' :: ps) s = true ↔ ∃ n, likeL ps (s.drop n) = true := by
  intro s
  induction s with
  | nil =>
    rw [likeL_percent]
    constructor
    · intro h; exact ⟨0, by simpa using h⟩
    · rintro ⟨n, hn⟩; simp only [List.drop_nil] at hn; simp [hn]
  | cons c t ih =>
    rw [likeL_percent]
    show (likeL ps (c :: t) || likeL ('%' :: ps) t) = true ↔ _
    rw [Bool.or_eq_true, ih]
    constructor
    · rintro (h | ⟨n, hn⟩)
      · exact ⟨0, h⟩
      · exact ⟨n + 1, by simpa using hn⟩
    · rintro ⟨n, hn⟩
      cases n with
      | zero => exact Or.inl (by simpa using hn)
      | succ n => exact Or.inr ⟨n, by simpa using hn⟩

lemma likeL_percent_singleton (s : List Char) : likeL ['%'] s = true := by
  induction s with
  | nil => rfl
  | cons c t ih =>
    rw [likeL_percent]
    show (likeL [] (c :: t) || likeL ['%'] t) = true
    rw [ih, Bool.or_true]

lemma likeL_lit_append : ∀ (q : List Char), (∀ c ∈ q, c ≠ '%' ∧ c ≠ '_') →
    ∀ s, likeL (q ++ ['%']) s = startsWithCI q s := by
  intro q
  induction q with
  | nil =>
    intro _ s
    simp only [List.nil_append]
    rw [likeL_percent_singleton]
    rfl
  | cons a q ih =>
    intro hq s
    have ha := hq a (List.mem_cons_self a q)
    have hq' : ∀ c ∈ q, c ≠ '%' ∧ c ≠ '_' := fun c hc => hq c (List.mem_cons_of_mem a hc)
    cases s with
    | nil =>
      rw [List.cons_append, likeL_lit a _ [] ha.1 ha.2]
      rfl
    | cons b t =>
      rw [List.cons_append, likeL_lit a _ (b :: t) ha.1 ha.2]
      show ((toLowerAscii a == toLowerAscii b) && likeL (q ++ ['%']) t) = startsWithCI (a :: q) (b :: t)
      rw [ih hq' t]
      rfl

lemma containsCI_iff_drop (needle : List Char) :
    ∀ s, containsCI s needle = true ↔ ∃ n, startsWithCI needle (s.drop n) = true := by
  intro s
  induction s with
  | nil =>
    show startsWithCI needle [] = true ↔ _
    constructor
    · intro h; exact ⟨0, h⟩
    · rintro ⟨n, hn⟩; simpa [List.drop_nil] using hn
  | cons c t ih =>
    show (startsWithCI needle (c :: t) || containsCI t needle) = true ↔ _
    rw [Bool.or_eq_true, ih]
    constructor
    · rintro (h | ⟨n, hn⟩)
      · exact ⟨0, h⟩
      · exact ⟨n + 1, by simpa using hn⟩
    · rintro ⟨n, hn⟩
      cases n with
      | zero => exact Or.inl (by simpa using hn)
      | succ n => exact Or.inr ⟨n, by simpa using hn⟩

lemma likeL_wrap_eq_containsCI (q s : List Char) (hq : ∀ c ∈ q, c ≠ '%' ∧ c ≠ '_') :
    likeL ('%' :: (q ++ ['%'])) s = containsCI s q := by
  have h1 := likeL_percent_iff (q ++ ['%']) s
  have h2 : ∀ n, likeL (q ++ ['%']) (s.drop n) = startsWithCI q (s.drop n) :=
    fun n => likeL_lit_append q hq (s.drop n)
  have h3 := containsCI_iff_drop q s
  have hiff : likeL ('%' :: (q ++ ['%'])) s = true ↔ containsCI s q = true := by
    rw [h1, h3]
    constructor
    · rintro ⟨n, hn⟩; exact ⟨n, (h2 n) ▸ hn⟩
    · rintro ⟨n, hn⟩; exact ⟨n, (h2 n).symm ▸ hn⟩
  cases hb : likeL ('%' :: (q ++ ['%'])) s
  · cases hc : containsCI s q
    · rfl
    · exact absurd (hiff.mpr hc) (by simp [hb])
  · exact (hiff.mp hb).symm

lemma likeMatch_wrap (q s : String) (hq : ∀ c ∈ q.data, c ≠ '%' ∧ c ≠ '_') :
    likeMatch ("%" ++ q ++ "%") s = containsCI s.data q.data := by
  have hdata : ("%" ++ q ++ "%").data = '%' :: (q.data ++ ['%']) := by
    simp [String.data_append]
  rw [likeMatch, hdata]
  exact likeL_wrap_eq_containsCI q.data s.data hq

lemma startsWithCI_iff_map : ∀ (q s : List Char),
    startsWithCI q s = true ↔ ∃ r, s.map toLowerAscii = q.map toLowerAscii ++ r := by
  intro q
  induction q with
  | nil => intro s; simp [startsWithCI]
  | cons a as ih =>
    intro s
    cases s with
    | nil => simp [startsWithCI]
    | cons b t =>
      show ((toLowerAscii a == toLowerAscii b) && startsWithCI as t) = true ↔ _
      rw [Bool.and_eq_true, beq_iff_eq, ih t]
      constructor
      · rintro ⟨hab, r, hr⟩
        exact ⟨r, by simp [hr, hab]⟩
      · rintro ⟨r, hr⟩
        simp only [List.map_cons, List.cons_append, List.cons.injEq] at hr
        exact ⟨hr.1.symm, r, hr.2⟩

lemma containsCI_iff_map (s q : List Char) :
    containsCI s q = true ↔
      ∃ u r, s.map toLowerAscii = u ++ q.map toLowerAscii ++ r := by
  rw [containsCI_iff_drop]
  constructor
  · rintro ⟨n, hn⟩
    obtain ⟨r, hr⟩ := (startsWithCI_iff_map q (s.drop n)).mp hn
    refine ⟨(s.take n).map toLowerAscii, r, ?_⟩
    have hsplit : s.map toLowerAscii =
        (s.take n).map toLowerAscii ++ (s.drop n).map toLowerAscii := by
      rw [← List.map_append, List.take_append_drop]
    rw [hsplit, hr, List.append_assoc]
  · rintro ⟨u, r, hr⟩
    refine ⟨u.length, (startsWithCI_iff_map q (s.drop u.length)).mpr ⟨r, ?_⟩⟩
    have hmap : (s.drop u.length).map toLowerAscii = (s.map toLowerAscii).drop u.length := by
      rw [List.map_drop]
    rw [hmap, hr, List.append_assoc, List.drop_left]

lemma digitChar_isDig (n : Nat) (h : n < 10) : isDig (digitChar n) = true := by
  interval_cases n <;> decide

lemma digitChar_val (n : Nat) (h : n < 10) : (digitValB 10 (digitChar n)).getD 0 = n := by
  interval_cases n <;> decide

lemma toDecRev_digits : ∀ f n, n < f → ∀ c ∈ toDecRev f n, isDig c = true := by
  intro f
  induction f with
  | zero => intro n h; omega
  | succ f ih =>
    intro n h c hc
    by_cases h10 : n < 10
    · simp only [toDecRev, if_pos h10, List.mem_singleton] at hc
      exact hc ▸ digitChar_isDig n h10
    · simp only [toDecRev, if_neg h10, List.mem_cons] at hc
      rcases hc with rfl | hc
      · exact digitChar_isDig _ (Nat.mod_lt _ (by omega))
      · exact ih (n / 10) (by
          have := Nat.div_lt_self (show 0 < n by omega) (show 1 < 10 by omega)
          omega) c hc

lemma toDecRev_foldl : ∀ f n acc, n < f →
    ((toDecRev f n).reverse).foldl decStep acc = acc * 10 ^ (toDecRev f n).length + n := by
  intro f
  induction f with
  | zero => intro n acc h; omega
  | succ f ih =>
    intro n acc h
    by_cases h10 : n < 10
    · simp only [toDecRev, if_pos h10, List.reverse_singleton, List.foldl_cons, List.foldl_nil,
        List.length_singleton, pow_one, decStep]
      rw [digitChar_val n h10]
    · have hdiv : n / 10 < f := by
        have := Nat.div_lt_self (show 0 < n by omega) (show 1 < 10 by omega)
        omega
      simp only [toDecRev, if_neg h10, List.reverse_cons, List.foldl_append, List.foldl_cons,
        List.foldl_nil, List.length_cons]
      rw [ih (n / 10) acc hdiv]
      simp only [decStep]
      rw [digitChar_val (n % 10) (Nat.mod_lt _ (by omega))]
      have hmod := Nat.div_add_mod n 10
      rw [pow_succ]
      ring_nf
      omega

lemma isDig_bounds (c : Char) (h : isDig c = true) : 48 ≤ c.toNat ∧ c.toNat ≤ 57 := by
  unfold isDig inRange at h
  simp only [Bool.and_eq_true, Nat.ble_eq] at h
  exact h

lemma not_jsws_of_digit (c : Char) (h : isDig c = true) : isJsWhitespace c = false := by
  have hb := isDig_bounds c h
  cases hw : isJsWhitespace c
  · rfl
  · exfalso
    unfold isJsWhitespace at hw
    simp only [Bool.or_eq_true, beq_iff_eq, Bool.and_eq_true, Nat.ble_eq] at hw
    omega

lemma digit_toNat_ne (c : Char) (h : isDig c = true) (d : Char)
    (hd : ¬(48 ≤ d.toNat ∧ d.toNat ≤ 57)) : c ≠ d :=
  fun heq => hd (heq ▸ isDig_bounds c h)

lemma takeWhile_all {α : Type} (p : α → Bool) :
    ∀ l : List α, (∀ c ∈ l, p c = true) → l.takeWhile p = l := by
  intro l
  induction l with
  | nil => intro _; rfl
  | cons a t ih =>
    intro h
    rw [List.takeWhile_cons, if_pos (h a (List.mem_cons_self a t))]
    rw [ih (fun c hc => h c (List.mem_cons_of_mem a hc))]

lemma parseIntJs_digits (ds : List Char) (h1 : ds ≠ []) (h2 : ∀ c ∈ ds, isDig c = true) :
    parseIntJs (String.mk ds) = some ((ds.foldl decStep 0 : Nat) : Int) := by
  obtain ⟨d, t, rfl⟩ := List.exists_cons_of_ne_nil h1
  have hd := h2 d (List.mem_cons_self d t)
  have hdw : isJsWhitespace d = false := not_jsws_of_digit d hd
  have hdropData : (String.mk (d :: t)).data.dropWhile isJsWhitespace = d :: t := by
    show (d :: t).dropWhile isJsWhitespace = d :: t
    simp [List.dropWhile_cons, hdw]
  have hdm : d ≠ '-' := digit_toNat_ne d hd '-' (by decide)
  have hdp : d ≠ '+' := digit_toNat_ne d hd '+' (by decide)
  have hnohex : ¬(d = '0' ∧ (t.head? = some 'x' ∨ t.head? = some 'X')) := by
    rintro ⟨h0, hx⟩
    cases t with
    | nil => simp at hx
    | cons c u =>
      have hc := h2 c (List.mem_cons_of_mem d (List.mem_cons_self c u))
      simp only [List.head?_cons] at hx
      rcases hx with hx | hx
      · exact digit_toNat_ne c hc 'x' (by decide) (Option.some.inj hx)
      · exact digit_toNat_ne c hc 'X' (by decide) (Option.some.inj hx)
  have htake : (d :: t).takeWhile (fun c => (digitValB 10 c).isSome) = d :: t := by
    refine takeWhile_all _ _ (fun c hc => ?_)
    simp [digitValB, h2 c hc]
  unfold parseIntJs
  rw [hdropData]
  simp [hdm, hdp, hnohex, htake, decStep]
  rfl

lemma toDecRev_ne_nil (n : Nat) : toDecRev (n + 1) n ≠ [] := by
  unfold toDecRev
  by_cases h : n < 10 <;> simp [h]

lemma parseIntJs_natToDec (n : Nat) : parseIntJs (natToDec n) = some (n : Int) := by
  have hne : (toDecRev (n + 1) n).reverse ≠ [] := by
    simpa using toDecRev_ne_nil n
  have hdig : ∀ c ∈ (toDecRev (n + 1) n).reverse, isDig c = true :=
    fun c hc => toDecRev_digits (n + 1) n (by omega) c (List.mem_reverse.mp hc)
  rw [natToDec, parseIntJs_digits _ hne hdig]
  have hval := toDecRev_foldl (n + 1) n 0 (by omega)
  simp only [Nat.zero_mul, Nat.zero_add] at hval
  rw [hval]

lemma validate_isValid_iff (name email : String) :
    (validate name email).isValid = true ↔ nameErrors name = [] ∧ emailErrors email = [] := by
  unfold validate
  simp [List.isEmpty_iff, List.append_eq_nil]

lemma trimJs_empty : trimJs "" = "" := rfl

lemma name_ne_empty_of_trim {name : String} (h : trimJs name ≠ "") : name ≠ "" := by
  intro heq
  exact h (heq ▸ trimJs_empty)

lemma nameErrors_eq_nil_iff (name : String) :
    nameErrors name = [] ↔
      trimJs name ≠ "" ∧ name.length ≤ 50 ∧
        ∀ c ∈ name.data, (isAsciiLetter c || isJsWhitespace c) = true := by
  unfold nameErrors
  by_cases h1 : name = "" ∨ trimJs name = ""
  · rw [if_pos h1]
    constructor
    · intro h; simp at h
    · rintro ⟨htrim, _, _⟩
      rcases h1 with rfl | h1
      · exact absurd rfl htrim
      · exact absurd h1 htrim
  · rw [if_neg h1]
    push_neg at h1
    by_cases h2 : 50 < name.length
    · rw [if_pos h2]
      constructor
      · intro h; simp at h
      · rintro ⟨_, hle, _⟩; omega
    · rw [if_neg h2]
      by_cases h3 : nameRegexTest name = false
      · rw [if_pos h3]
        constructor
        · intro h; simp at h
        · rintro ⟨_, _, hall⟩
          have hne : name.data ≠ [] := by
            intro hd
            exact h1.1 (String.ext (by rw [hd]))
          have hie : name.data.isEmpty = false := by
            rw [← Bool.not_eq_true, List.isEmpty_iff]
            exact hne
          have hall' : name.data.all (fun c => isAsciiLetter c || isJsWhitespace c) = true :=
            List.all_eq_true.mpr hall
          unfold nameRegexTest at h3
          rw [hie, hall'] at h3
          simp at h3
      · rw [if_neg h3]
        have h3' : nameRegexTest name = true := by
          rcases Bool.eq_false_or_eq_true (nameRegexTest name) with hb | hb
          · exact hb
          · exact absurd hb h3
        constructor
        · intro _
          refine ⟨h1.2, by omega, ?_⟩
          unfold nameRegexTest at h3'
          rw [Bool.and_eq_true] at h3'
          exact List.all_eq_true.mp h3'.2
        · intro _; rfl

lemma validate_invalid_of_badchar (name email : String) (c : Char) (hc : c ∈ name.data)
    (hl : isAsciiLetter c = false) (hw : isJsWhitespace c = false) :
    (validate name email).isValid = false := by
  rcases Bool.eq_false_or_eq_true ((validate name email).isValid) with h | h
  swap
  · exact h
  · exfalso
    obtain ⟨hn, _⟩ := (validate_isValid_iff name email).mp h
    obtain ⟨_, _, hall⟩ := (nameErrors_eq_nil_iff name).mp hn
    have hcontra := hall c hc
    rw [hl, hw] at hcontra
    simp at hcontra

lemma name_len_of_valid (name email : String) (h : (validate name email).isValid = true) :
    0 < name.length ∧ name.length ≤ 50 := by
  obtain ⟨hn, _⟩ := (validate_isValid_iff name email).mp h
  obtain ⟨htrim, hle, _⟩ := (nameErrors_eq_nil_iff name).mp hn
  refine ⟨?_, hle⟩
  have hne := name_ne_empty_of_trim htrim
  by_contra h0
  have h00 : name.data.length = 0 := by
    have hz : name.length = 0 := by omega
    exact hz
  exact hne (String.ext (by rw [List.length_eq_zero.mp h00]))

lemma getContactByEmail_eq_none_iff (st : Store) (email : String) :
    getContactByEmail st email = none ↔ ∀ r ∈ st.rows, r.email ≠ email := by
  unfold getContactByEmail
  simp [Option.map_eq_none', List.find?_eq_none]

lemma serviceCreate_success (st : Store) (now : Nat) (name email : String)
    (hv : (validate name email).isValid = true)
    (hfresh : getContactByEmail st email = none)
    (hchk : likeMatch emailCheckPattern email = true)
    (hwf : ∀ r ∈ st.rows, r.id < st.nextId) :
    serviceCreate st now name email =
      (Except.ok (rowToContact ⟨st.nextId, name, email, now⟩),
        ⟨st.rows ++ [⟨st.nextId, name, email, now⟩], st.nextId + 1⟩) := by
  have hlen := name_len_of_valid name email hv
  have hmail := (getContactByEmail_eq_none_iff st email).mp hfresh
  have hany : st.rows.any (fun r => r.email == email) = false := by
    rw [List.any_eq_false]
    intro r hr
    simp [hmail r hr]
  have hfind : (st.rows ++ [(⟨st.nextId, name, email, now⟩ : Row)]).find?
      (fun r => (r.id : Int) == (st.nextId : Int)) = some ⟨st.nextId, name, email, now⟩ := by
    rw [List.find?_append]
    have hnone : st.rows.find? (fun r => (r.id : Int) == (st.nextId : Int)) = none := by
      rw [List.find?_eq_none]
      intro r hr
      have := hwf r hr
      simp only [beq_iff_eq]
      omega
    rw [hnone]
    simp [List.find?]
  have hadd : addContact st now name email =
      Except.ok (some (rowToContact ⟨st.nextId, name, email, now⟩),
        ⟨st.rows ++ [⟨st.nextId, name, email, now⟩], st.nextId + 1⟩) := by
    unfold addContact
    rw [if_neg (by
      rintro (h | h)
      · exact h ⟨hlen.1, hlen.2⟩
      · rw [hchk] at h; exact absurd h (by decide))]
    rw [if_neg (by simp [hany])]
    simp only [getContactById, parseIntJs_natToDec]
    simp [hfind]
  unfold serviceCreate serviceGetByEmail
  rw [hfresh]
  simp only [hv, if_true, Option.map_none']
  rw [hadd]
  rfl

lemma serviceCreate_dup (st : Store) (now : Nat) (name email : String)
    (hv : (validate name email).isValid = true)
    (hsome : ∃ c, getContactByEmail st email = some c) :
    serviceCreate st now name email = (Except.error CreateError.duplicateEmail, st) := by
  obtain ⟨c, hc⟩ := hsome
  unfold serviceCreate serviceGetByEmail
  rw [hc]
  simp [hv]

lemma length_filter_lt_of_mem {α : Type} (p : α → Bool) (l : List α) (a : α)
    (ha : a ∈ l) (hpa : p a = false) : (l.filter p).length < l.length := by
  induction l with
  | nil => cases ha
  | cons x xs ih =>
    rcases List.mem_cons.mp ha with rfl | ha2
    · rw [List.filter_cons, hpa, if_neg (by decide)]
      have := List.length_filter_le p xs
      simp only [List.length_cons]
      omega
    · rw [List.filter_cons]
      by_cases hx : p x = true
      · rw [if_pos hx]
        simp only [List.length_cons]
        exact Nat.succ_lt_succ (ih ha2)
      · rw [if_neg hx]
        have := ih ha2
        simp only [List.length_cons]
        omega

lemma find?_fresh_id (rows : List Row) (k : Nat) (row : Row) (hid : row.id = k)
    (hwf : ∀ r ∈ rows, r.id < k) :
    (rows ++ [row]).find? (fun r => (r.id : Int) == (k : Int)) = some row := by
  rw [List.find?_append]
  have hnone : rows.find? (fun r => (r.id : Int) == (k : Int)) = none := by
    rw [List.find?_eq_none]
    intro r hr
    have := hwf r hr
    simp only [beq_iff_eq]
    omega
  rw [hnone]
  simp [List.find?, hid]

/-- C3: the service search with an empty or whitespace-only query returns
exactly the sequence getAll returns, and with any other query it delegates to
the storage adapter's search on the trimmed query. -/
theorem claim3_search_fallback (st : Store) (q : String) :
    (trimJs q = "" → serviceSearch st q = serviceGetAll st) ∧
    (trimJs q ≠ "" →
      serviceSearch st q = (searchContacts st (trimJs q)).map fromDatabaseToJSON) := by
  constructor
  · intro h
    unfold serviceSearch
    rw [if_pos (Or.inr h)]
  · intro h
    unfold serviceSearch
    rw [if_neg (by rintro (hq | hq); exacts [h (hq ▸ trimJs_empty), h hq])]

/-- C3 witness: on a one-row store, a whitespace query lists everything and a
padded query delegates trimmed. -/
theorem claim3_witness :
    serviceSearch ⟨[⟨1, "Bob", "b@x.co", 5⟩], 2⟩ "  " = serviceGetAll ⟨[⟨1, "Bob", "b@x.co", 5⟩], 2⟩ ∧
    serviceSearch ⟨[⟨1, "Bob", "b@x.co", 5⟩], 2⟩ " bo " =
      (searchContacts ⟨[⟨1, "Bob", "b@x.co", 5⟩], 2⟩ (trimJs " bo ")).map fromDatabaseToJSON :=
  ⟨(claim3_search_fallback ⟨[⟨1, "Bob", "b@x.co", 5⟩], 2⟩ "  ").1 (by decide),
    (claim3_search_fallback ⟨[⟨1, "Bob", "b@x.co", 5⟩], 2⟩ " bo ").2 (by decide)⟩

/-- C10: at every store state the count equals the length of the full listing,
in particular at the state left by any create or any delete. -/
theorem claim10_count_consistency :
    (∀ st : Store, serviceCount st = (serviceGetAll st).length) ∧
    (∀ (st : Store) (now : Nat) (name email : String),
      serviceCount (serviceCreate st now name email).2 =
        (serviceGetAll (serviceCreate st now name email).2).length) ∧
    (∀ (st : Store) (id : String),
      serviceCount (serviceDelete st id).2 =
        (serviceGetAll (serviceDelete st id).2).length) := by
  have hmain : ∀ st : Store, serviceCount st = (serviceGetAll st).length := by
    intro st
    unfold serviceCount getContactCount serviceGetAll getAllContacts
    rw [List.length_map, List.length_map, sortByCreatedAtDesc_length]
  exact ⟨hmain, fun st now name email => hmain _, fun st id => hmain _⟩

/-- C2: invalid input makes create fail with the validation condition carrying
the collected error list and an untouched store; a name containing a digit or
symbol — any character that is neither an ASCII letter nor JS whitespace —
always invalidates. -/
theorem claim2_validation_guard (st : Store) (now : Nat) (name email : String) :
    ((validate name email).isValid = false →
      serviceCreate st now name email =
        (Except.error (CreateError.validationFailed (validate name email).errors), st)) ∧
    ((∃ c ∈ name.data, isAsciiLetter c = false ∧ isJsWhitespace c = false) →
      (validate name email).isValid = false) := by
  constructor
  · intro h
    unfold serviceCreate
    rw [if_neg (by simp [h])]
  · rintro ⟨c, hc, hl, hw⟩
    exact validate_invalid_of_badchar name email c hc hl hw

/-- C2 witness: the digit-bearing name is rejected with the name error and the
store is untouched. -/
theorem claim2_witness :
    serviceCreate initStore 0 "a1" "e@xy.zw" =
      (Except.error (CreateError.validationFailed (validate "a1" "e@xy.zw").errors), initStore) ∧
    (validate "a1" "e@xy.zw").isValid = false :=
  ⟨(claim2_validation_guard initStore 0 "a1" "e@xy.zw").1 (by decide),
    (claim2_validation_guard initStore 0 "a1" "e@xy.zw").2 ⟨'1', by decide, by decide⟩⟩

/-- C6 counterexample: the name with an embedded tab contains a character
outside the letters-and-space set, yet validation accepts it (the source
regex admits every JS whitespace character, not just the space). -/
theorem claim6_counterexample :
    (validate "a\tb" "a@bc.de").isValid = true ∧
    ("a\tb".data.all (fun c => isAsciiLetter c || c == ' ')) = false := by
  decide

/-- C6 amended: the verdict is valid exactly when the error list is empty, and
the name passes exactly when it is not whitespace-only, is at most 50 long,
and every character is an ASCII letter or a JS whitespace character (not just
the space the claim names). -/
theorem claim6_validation_characterization (name email : String) :
    ((validate name email).isValid = true ↔ (validate name email).errors = []) ∧
    (nameErrors name = [] ↔
      trimJs name ≠ "" ∧ name.length ≤ 50 ∧
        ∀ c ∈ name.data, (isAsciiLetter c || isJsWhitespace c) = true) := by
  constructor
  · unfold validate
    simp [List.isEmpty_iff]
  · exact nameErrors_eq_nil_iff name

/-- C4 counterexample: a malformed identifier against the MongoDB backend is
not a "not found" — the ObjectId constructor throws and getContactById
rethrows. -/
theorem claim4_counterexample :
    isValidObjectId "abc" = false ∧
    getContactByIdM ⟨[]⟩ "abc" = Except.error bsonErrorMessage := by
  decide

/-- C4 amended: the SQLite backend does tolerate malformed identifiers — any
id string that does not resolve through parseInt to a stored integer key
yields none, never an error — while the MongoDB backend raises the BSONError
for every string that is not a 24-character hex ObjectId. -/
theorem claim4_find_by_id (st : Store) (id : String) (mst : MStore) :
    ((∀ r ∈ st.rows, parseIntJs id ≠ some (r.id : Int)) → serviceGetById st id = none) ∧
    (isValidObjectId id = false → getContactByIdM mst id = Except.error bsonErrorMessage) := by
  constructor
  · intro h
    unfold serviceGetById getContactById
    cases hp : parseIntJs id with
    | none => rfl
    | some n =>
      have hfind : st.rows.find? (fun r => (r.id : Int) == n) = none := by
        rw [List.find?_eq_none]
        intro r hr
        simp only [beq_iff_eq]
        intro he
        exact h r hr (by rw [hp, he])
      simp [hfind]
  · intro h
    unfold getContactByIdM
    rw [if_neg (by simp [h])]

/-- C4 witness: the non-numeric id resolves to "not found" on the SQLite
store and to the thrown BSONError on the MongoDB store. -/
theorem claim4_witness :
    serviceGetById ⟨[⟨1, "Bob", "b@x.co", 5⟩], 2⟩ "abcdef" = none ∧
    getContactByIdM ⟨[⟨"aabbccddeeff001122334455", "Bob", "b@x.co", 5⟩]⟩ "abcdef" =
      Except.error bsonErrorMessage :=
  ⟨(claim4_find_by_id ⟨[⟨1, "Bob", "b@x.co", 5⟩], 2⟩ "abcdef" ⟨[]⟩).1 (by decide),
    (claim4_find_by_id ⟨[⟨1, "Bob", "b@x.co", 5⟩], 2⟩ "abcdef"
      ⟨[⟨"aabbccddeeff001122334455", "Bob", "b@x.co", 5⟩]⟩).2 (by decide)⟩

/-- C8 counterexample: a MongoDB single read surfaces the native ObjectId,
not an identifier string. -/
theorem claim8_counterexample :
    getContactByEmailM ⟨[⟨"aabbccddeeff001122334455", "Bob", "b@x.co", 5⟩]⟩ "b@x.co" =
      some ⟨DbId.oid "aabbccddeeff001122334455", "Bob", "b@x.co", 5⟩ ∧
    idIsStr ⟨DbId.oid "aabbccddeeff001122334455", "Bob", "b@x.co", 5⟩ = false := by
  decide

/-- C8 amended: the SQLite backend surfaces the identifier as a string on
every single-contact read (by email, by id, and the insert's re-read), while
the MongoDB backend surfaces the engine's native ObjectId on its reads and on
its insert result, so the two canonical shapes differ. -/
theorem claim8_canonical_shape :
    (∀ (st : Store) (email : String) (c : DbContact),
      getContactByEmail st email = some c → idIsStr c = true) ∧
    (∀ (st : Store) (id : String) (c : DbContact),
      getContactById st id = some c → idIsStr c = true) ∧
    (∀ (st : Store) (now : Nat) (name email : String) (oc : Option DbContact) (stNew : Store),
      addContact st now name email = Except.ok (oc, stNew) →
        ∀ c, oc = some c → idIsStr c = true) ∧
    (∀ (mst : MStore) (email : String) (c : DbContact),
      getContactByEmailM mst email = some c → idIsStr c = false) ∧
    (∀ (mst : MStore) (newId : String) (now : Nat) (name email : String)
        (c : DbContact) (mstNew : MStore),
      addContactM mst newId now name email = Except.ok (c, mstNew) → idIsStr c = false) := by
  have hbyId : ∀ (st : Store) (id : String) (c : DbContact),
      getContactById st id = some c → idIsStr c = true := by
    intro st id c h
    unfold getContactById at h
    cases hp : parseIntJs id with
    | none => rw [hp] at h; cases h
    | some n =>
      rw [hp] at h
      obtain ⟨r, _, hfc⟩ := Option.map_eq_some'.mp h
      rw [← hfc]
      rfl
  refine ⟨?_, hbyId, ?_, ?_, ?_⟩
  · intro st email c h
    unfold getContactByEmail at h
    obtain ⟨r, _, hfc⟩ := Option.map_eq_some'.mp h
    rw [← hfc]
    rfl
  · intro st now name email oc stNew h c hc
    unfold addContact at h
    by_cases h1 : ¬(0 < name.length ∧ name.length ≤ 50) ∨ likeMatch emailCheckPattern email = false
    · rw [if_pos h1] at h; cases h
    · rw [if_neg h1] at h
      by_cases h2 : st.rows.any (fun r => r.email == email) = true
      · rw [if_pos h2] at h; cases h
      · rw [if_neg h2] at h
        have hpr := Except.ok.inj h
        simp only [Prod.mk.injEq] at hpr
        exact hbyId _ _ c (by rw [hpr.1, hc])
  · intro mst email c h
    unfold getContactByEmailM at h
    obtain ⟨d, _, hfc⟩ := Option.map_eq_some'.mp h
    rw [← hfc]
    rfl
  · intro mst newId now name email c mstNew h
    unfold addContactM at h
    by_cases h1 : mst.docs.any (fun d => d.email == email) = true
    · rw [if_pos h1] at h; cases h
    · rw [if_neg h1] at h
      have hpr := Except.ok.inj h
      simp only [Prod.mk.injEq] at hpr
      rw [← hpr.1]
      rfl

/-- C9: delete returns false and leaves the store untouched when no stored
row's key is denoted by the id, and returns true when one is, removing it so
that a subsequent getById over the same id finds nothing; absence is a
boolean, never an error. -/
theorem claim9_delete_contract (st : Store) (id : String) :
    ((∀ r ∈ st.rows, parseIntJs id ≠ some (r.id : Int)) → serviceDelete st id = (false, st)) ∧
    (∀ n : Int, parseIntJs id = some n → (∃ r ∈ st.rows, (r.id : Int) = n) →
      (serviceDelete st id).1 = true ∧ serviceGetById (serviceDelete st id).2 id = none) := by
  constructor
  · intro h
    unfold serviceDelete deleteContact
    cases hp : parseIntJs id with
    | none => rfl
    | some n =>
      have hfil : st.rows.filter (fun r => !((r.id : Int) == n)) = st.rows := by
        rw [List.filter_eq_self]
        intro r hr
        have hne : (r.id : Int) ≠ n := fun he => h r hr (by rw [hp, he])
        simp [hne]
      simp [hfil]
  · rintro n hp ⟨r, hr, hrn⟩
    have hlt : (st.rows.filter (fun r => !((r.id : Int) == n))).length < st.rows.length :=
      length_filter_lt_of_mem _ _ r hr (by simp [hrn])
    have hdel : serviceDelete st id =
        (true, ⟨st.rows.filter (fun r => !((r.id : Int) == n)), st.nextId⟩) := by
      unfold serviceDelete deleteContact
      rw [hp]
      simp [hlt]
    rw [hdel]
    refine ⟨rfl, ?_⟩
    unfold serviceGetById getContactById
    rw [hp]
    have hfind : (st.rows.filter (fun s => !((s.id : Int) == n))).find?
        (fun s => (s.id : Int) == n) = none := by
      rw [List.find?_eq_none]
      intro x hx
      have := List.of_mem_filter hx
      simp only [Bool.not_eq_true'] at this
      simp [this]
    simp [hfind]

/-- C1 counterexample: the input is valid by the Validation Rules and the
store is empty, yet the first create does not succeed — the schema's email
CHECK pattern rejects the email and the adapter rethrows a generic storage
fault. -/
theorem claim1_counterexample :
    (validate "Al" "me@x.co").isValid = true ∧
    getContactByEmail initStore "me@x.co" = none ∧
    serviceCreate initStore 0 "Al" "me@x.co" = (Except.error CreateError.storageFault, initStore) := by
  decide

/-- C1 amended: on a well-formed store (row keys below the auto-increment
counter) that does not hold the email yet, and for inputs valid by the
Validation Rules whose email also satisfies the schema's CHECK pattern, the
first create succeeds and a second create with the same email (any valid
name) fails with the duplicate condition, leaving the store of the first call
untouched with exactly one contact under that email. -/
theorem claim1_duplicate_create (st : Store) (now1 now2 : Nat) (name1 name2 email : String)
    (hv1 : (validate name1 email).isValid = true)
    (hv2 : (validate name2 email).isValid = true)
    (hchk : likeMatch emailCheckPattern email = true)
    (hfresh : getContactByEmail st email = none)
    (hwf : ∀ r ∈ st.rows, r.id < st.nextId) :
    dupSecondCall st now1 now2 name1 name2 email = true := by
  have h1 := serviceCreate_success st now1 name1 email hv1 hfresh hchk hwf
  have hmail := (getContactByEmail_eq_none_iff st email).mp hfresh
  have hsome : getContactByEmail
      ⟨st.rows ++ [⟨st.nextId, name1, email, now1⟩], st.nextId + 1⟩ email =
        some (rowToContact ⟨st.nextId, name1, email, now1⟩) := by
    unfold getContactByEmail
    rw [List.find?_append]
    have hnone : st.rows.find? (fun r => r.email == email) = none := by
      rw [List.find?_eq_none]
      intro r hr
      simp [hmail r hr]
    rw [hnone]
    simp [List.find?]
  have h2 := serviceCreate_dup ⟨st.rows ++ [⟨st.nextId, name1, email, now1⟩], st.nextId + 1⟩
    now2 name2 email hv2 ⟨_, hsome⟩
  have hcount : countEmail
      ⟨st.rows ++ [⟨st.nextId, name1, email, now1⟩], st.nextId + 1⟩ email = 1 := by
    unfold countEmail
    rw [List.filter_append]
    have hnil : st.rows.filter (fun r => r.email == email) = [] := by
      rw [List.filter_eq_nil_iff]
      intro r hr
      simp [hmail r hr]
    rw [hnil]
    simp [List.filter]
  unfold dupSecondCall
  rw [h1]
  simp [h2, hcount]

/-- C1 witness: the scripted example of the spec, run on the fresh store. -/
theorem claim1_witness :
    dupSecondCall initStore 0 1 "John Doe" "Jane" "john@example.com" = true :=
  claim1_duplicate_create initStore 0 1 "John Doe" "Jane" "john@example.com"
    (by decide) (by decide) (by decide) (by decide) (by decide)

/-- C7 counterexample: a valid pair with a fresh email for which create fails
outright on the schema's email CHECK constraint, so no created contact can be
fetched back. -/
theorem claim7_counterexample :
    (validate "Bo" "me@y.co").isValid = true ∧
    getContactByEmail initStore "me@y.co" = none ∧
    serviceCreate initStore 0 "Bo" "me@y.co" = (Except.error CreateError.storageFault, initStore) ∧
    roundTrips initStore 0 "Bo" "me@y.co" = false := by
  decide

/-- C7 amended: on a well-formed store without the email, and for valid input
whose email also satisfies the schema's CHECK pattern, create succeeds and
fetching the returned id gives back the identical contact, field for field. -/
theorem claim7_create_roundtrip (st : Store) (now : Nat) (name email : String)
    (hv : (validate name email).isValid = true)
    (hchk : likeMatch emailCheckPattern email = true)
    (hfresh : getContactByEmail st email = none)
    (hwf : ∀ r ∈ st.rows, r.id < st.nextId) :
    roundTrips st now name email = true := by
  have h1 := serviceCreate_success st now name email hv hfresh hchk hwf
  unfold roundTrips
  rw [h1]
  have hget : serviceGetById
      ⟨st.rows ++ [⟨st.nextId, name, email, now⟩], st.nextId + 1⟩
      (idStringOf (rowToContact ⟨st.nextId, name, email, now⟩)) =
        some (rowToContact ⟨st.nextId, name, email, now⟩) := by
    show serviceGetById _ (natToDec st.nextId) = _
    unfold serviceGetById getContactById
    rw [parseIntJs_natToDec]
    simp [find?_fresh_id st.rows st.nextId ⟨st.nextId, name, email, now⟩ rfl hwf]
    rfl
  simp [hget]

/-- C7 witness: the round trip at the spec's example input on the fresh
store. -/
theorem claim7_witness :
    roundTrips initStore 0 "John Doe" "john@example.com" = true :=
  claim7_create_roundtrip initStore 0 "John Doe" "john@example.com"
    (by decide) (by decide) (by decide) (by decide)

/-- C5 counterexample: the underscore query returns a contact although
neither name nor email contains it as a substring — the adapter splices the
query into the LIKE pattern, so LIKE wildcards in the query are not matched
literally. -/
theorem claim5_counterexample :
    serviceSearch ⟨[⟨1, "Bob", "b@x.co", 5⟩], 2⟩ "_" =
      [⟨DbId.str "1", "Bob", "b@x.co", 5⟩] ∧
    specMatches "_" ⟨1, "Bob", "b@x.co", 5⟩ = false := by
  decide

/-- C5 amended: for a query that is non-empty after trimming and whose
trimmed form contains no LIKE wildcard (percent or underscore), the service
search returns exactly the rows whose name or email contains the trimmed
query as a case-insensitive substring, sorted by createdAt descending: it
equals the converted sort of the filter by the specification predicate, that
sort is pairwise descending on createdAt, and it is a permutation of the
filter itself. -/
theorem claim5_search_characterization (st : Store) (q : String)
    (h1 : trimJs q ≠ "")
    (h2 : ∀ c ∈ (trimJs q).data, c ≠ '%' ∧ c ≠ '_') :
    serviceSearch st q =
      (sortByCreatedAtDesc (st.rows.filter (specMatches (trimJs q)))).map rowToContact ∧
    (sortByCreatedAtDesc (st.rows.filter (specMatches (trimJs q)))).Pairwise
      (fun a b => b.createdAt ≤ a.createdAt) ∧
    (sortByCreatedAtDesc (st.rows.filter (specMatches (trimJs q)))).Perm
      (st.rows.filter (specMatches (trimJs q))) := by
  refine ⟨?_, sortByCreatedAtDesc_pairwise _, sortByCreatedAtDesc_perm _⟩
  unfold serviceSearch
  rw [if_neg (by rintro (hq | hq); exacts [h1 (hq ▸ trimJs_empty), h1 hq])]
  unfold searchContacts
  have hfn : fromDatabaseToJSON ∘ rowToContact = rowToContact := rfl
  rw [List.map_map, hfn]
  have hfilter : st.rows.filter
      (fun r => likeMatch ("%" ++ trimJs q ++ "%") r.name ||
        likeMatch ("%" ++ trimJs q ++ "%") r.email) =
      st.rows.filter (specMatches (trimJs q)) := by
    apply List.filter_congr
    intro r _
    unfold specMatches
    rw [likeMatch_wrap _ _ h2, likeMatch_wrap _ _ h2]
  rw [hfilter]

/-- C5 witness: a two-row store searched with a case-flipped query: only the
matching row comes back, in the characterized shape. -/
theorem claim5_witness :
    serviceSearch ⟨[⟨1, "Bob", "b@x.co", 5⟩, ⟨2, "Ann", "ann@bc.de", 7⟩], 3⟩ "BO" =
      (sortByCreatedAtDesc ((⟨[⟨1, "Bob", "b@x.co", 5⟩, ⟨2, "Ann", "ann@bc.de", 7⟩], 3⟩ :
        Store).rows.filter (specMatches (trimJs "BO")))).map rowToContact ∧
    (sortByCreatedAtDesc ((⟨[⟨1, "Bob", "b@x.co", 5⟩, ⟨2, "Ann", "ann@bc.de", 7⟩], 3⟩ :
        Store).rows.filter (specMatches (trimJs "BO")))).Pairwise
      (fun a b => b.createdAt ≤ a.createdAt) ∧
    (sortByCreatedAtDesc ((⟨[⟨1, "Bob", "b@x.co", 5⟩, ⟨2, "Ann", "ann@bc.de", 7⟩], 3⟩ :
        Store).rows.filter (specMatches (trimJs "BO")))).Perm
      ((⟨[⟨1, "Bob", "b@x.co", 5⟩, ⟨2, "Ann", "ann@bc.de", 7⟩], 3⟩ :
        Store).rows.filter (specMatches (trimJs "BO"))) :=
  claim5_search_characterization ⟨[⟨1, "Bob", "b@x.co", 5⟩, ⟨2, "Ann", "ann@bc.de", 7⟩], 3⟩ "BO"
    (by decide) (by decide)
